import Mathlib

/-!
Verification of the Applied_Macro repository (teaching notebooks for empirical
macroeconomics plus an invoked linear rational-expectations DSGE solver).

The two notebooks under `src/` construct data frames (Taylor-rule series,
vacancy splicing) and call into a `Dynare` module (`from Dynare import *`)
that is not part of the source tree.  Data-frame computations are embedded
directly from the notebook cells; the solver components are modelled from the
specification, as noted in the doc comment of each such definition.

Real-valued notebook arithmetic is embedded over `ℝ` where transcendental
functions (`np.log`) appear and over `ℚ` elsewhere, so that concrete instances
evaluate by `decide`.
-/

/-! ## Taylor-rule data construction (notebook cell, `dta` frame)

Embeds, per row of the frame (series values at one date):
`dta['Output'] = np.log(fred['GDP']*10**9/fred['GDPDEF']*100)`
`dta['Potential Output'] = np.log(fred['NGDPPOT']*10**9/fred['GDPDEF']*100)`
`dta['Output_Gap'] = 400*(dta['Output']-dta['Potential Output'])`
-/

noncomputable def Output (gdp gdpdef : ℝ) : ℝ :=
  Real.log (gdp * 10 ^ 9 / gdpdef * 100)

noncomputable def PotentialOutput (ngdppot gdpdef : ℝ) : ℝ :=
  Real.log (ngdppot * 10 ^ 9 / gdpdef * 100)

noncomputable def Output_Gap (gdp ngdppot gdpdef : ℝ) : ℝ :=
  400 * (Output gdp gdpdef - PotentialOutput ngdppot gdpdef)

/-! ## Vacancy-series splice (notebook cell, `df` frame)

Embeds:
`df['Vacancies'] = df['JTSJOL']['2014-01-01'] * df['HWI'] / df['HWI']['2014-01-01']`
`df['Vacancies']['2005-01-01':] = df['JTSJOL']['2005-01-01':]`

Dates are encoded as months since 1900-01 (the splice only compares dates and
looks up two fixed months, so any strictly monotone encoding is faithful).
A monthly series is a function from the date code to its value.
-/

def dateJan2005 : Nat := (2005 - 1900) * 12

def dateJan2014 : Nat := (2014 - 1900) * 12

def spliceVacancies (jtsjol hwi : Nat → ℚ) (d : Nat) : ℚ :=
  if dateJan2005 ≤ d then jtsjol d
  else jtsjol dateJan2014 * hwi d / hwi dateJan2014

/-! ## Theorems for the data-frame claims -/

/-- C9: In the Taylor-rule data construction, for every row the computed
`Output_Gap` equals `400·(log GDP − log NGDPPOT)`; in particular the common
deflator `GDPDEF` cancels and the output gap is independent of the deflator's
value. -/
theorem C9_output_gap_deflator_cancels (gdp ngdppot gdpdef gdpdef' : ℝ)
    (hg : 0 < gdp) (hp : 0 < ngdppot) (hd : 0 < gdpdef) (hd' : 0 < gdpdef') :
    Output_Gap gdp ngdppot gdpdef = 400 * (Real.log gdp - Real.log ngdppot) ∧
    Output_Gap gdp ngdppot gdpdef = Output_Gap gdp ngdppot gdpdef' := by
  have key : ∀ d : ℝ, 0 < d →
      Output_Gap gdp ngdppot d = 400 * (Real.log gdp - Real.log ngdppot) := by
    intro d hdpos
    have hx : gdp * 10 ^ 9 / d * 100 = gdp * (10 ^ 9 / d * 100) := by ring
    have hy : ngdppot * 10 ^ 9 / d * 100 = ngdppot * (10 ^ 9 / d * 100) := by ring
    have hc : (0:ℝ) < 10 ^ 9 / d * 100 := by positivity
    unfold Output_Gap Output PotentialOutput
    rw [hx, hy, Real.log_mul (ne_of_gt hg) (ne_of_gt hc),
      Real.log_mul (ne_of_gt hp) (ne_of_gt hc)]
    ring
  exact ⟨key gdpdef hd, by rw [key gdpdef hd, key gdpdef' hd']⟩

theorem C9_output_gap_deflator_cancels_witness :
    Output_Gap 1 2 3 = 400 * (Real.log 1 - Real.log 2) ∧
    Output_Gap 1 2 3 = Output_Gap 1 2 5 :=
  C9_output_gap_deflator_cancels 1 2 3 5 (by norm_num) (by norm_num)
    (by norm_num) (by norm_num)

/-- C10: After the splice, the `Vacancies` series equals `JTSJOL` at every
date from 2005-01 onward, and at every earlier date equals `HWI` scaled by
the constant `JTSJOL(2014-01)/HWI(2014-01)`. -/
theorem C10_vacancy_splice (jtsjol hwi : Nat → ℚ) (d : Nat) :
    (dateJan2005 ≤ d → spliceVacancies jtsjol hwi d = jtsjol d) ∧
    (d < dateJan2005 →
      spliceVacancies jtsjol hwi d =
        hwi d * (jtsjol dateJan2014 / hwi dateJan2014)) := by
  constructor
  · intro h
    simp [spliceVacancies, h]
  · intro h
    rw [spliceVacancies, if_neg (not_le.mpr h)]
    ring

theorem C10_vacancy_splice_witness :
    (spliceVacancies (fun d => (d : ℚ)) (fun _ => 2) dateJan2005 =
      (dateJan2005 : ℚ)) ∧
    (spliceVacancies (fun d => (d : ℚ)) (fun _ => 2) 0 =
      2 * (((dateJan2014 : Nat) : ℚ) / 2)) :=
  ⟨(C10_vacancy_splice (fun d => (d : ℚ)) (fun _ => 2) dateJan2005).1
      (le_refl _),
   (C10_vacancy_splice (fun d => (d : ℚ)) (fun _ => 2) 0).2 (by decide)⟩

/-! ## Rational-expectations solver (spec-modelled)

The `Dynare` module invoked by the notebooks (`from Dynare import *`,
`rbc.steady()`, `rbc.stoch_simul(irf=20)`) is not part of the source tree, so
the solver components are modelled from the specification's words.
-/

/-- Modelled from the spec: the error taxonomy of §7 for the
rational-expectations solve — `IndeterminacyError` and
`NoStableSolutionError` for the two directions of a Blanchard-Kahn order
condition violation. -/
inductive REError where
  | indeterminacy
  | noStableSolution
  deriving DecidableEq

/-- Modelled from the spec: `PolicyFunction{P, Q}` of §4.4 — `P` the
endogenous transition matrix and `Q` the shock-impact matrix, indexing a fixed
variable ordering. -/
structure PolicyFunction (n m : Nat) where
  P : Fin n → Fin n → ℚ
  Q : Fin n → Fin m → ℚ

/-- Modelled from the spec: the output of the generalized Schur/QZ-style
decomposition step of §4.4, which §9 delegates to "a well-tested
linear-algebra library" (a black box here; the `Dynare` module is missing from
the source tree).  For each of the `n` decoupled coordinates it carries the
(real representative of the) generalized eigenvalue `lam i`, classified by its
modulus `|lam i|`, and whether the coordinate is a non-predetermined (jump)
variable; it also carries the policy candidate obtained by back-substitution
through the decomposition. -/
structure QZData (n m : Nat) where
  lam : Fin n → ℚ
  jump : Fin n → Bool
  Pmat : Fin n → Fin n → ℚ
  Qmat : Fin n → Fin m → ℚ

/-- Modelled from the spec: the count of unstable (explosive) generalized
eigenvalues — those with modulus strictly outside the unit circle. -/
def nUnstable {n m : Nat} (d : QZData n m) : Nat :=
  (Finset.univ.filter (fun i => 1 < |d.lam i|)).card

/-- Modelled from the spec: the count of non-predetermined (jump) variables. -/
def nJump {n m : Nat} (d : QZData n m) : Nat :=
  (Finset.univ.filter (fun i => d.jump i = true)).card

/-- Modelled from the spec: §4.4's numeric tie-break — the indices of
eigenvalues whose modulus lies within the boundary tolerance of exactly 1,
reported as `BoundaryEigenvalueWarning`s (the tolerance is a parameter, per
the spec's open question). -/
def boundaryWarnings {n m : Nat} (tol : ℚ) (d : QZData n m) : Finset (Fin n) :=
  Finset.univ.filter (fun i => |(|d.lam i|) - 1| ≤ tol)

/-- Modelled from the spec: the outcome of a rational-expectations solve — a
(possibly empty) set of `BoundaryEigenvalueWarning` flags alongside either a
Blanchard-Kahn error or the recovered policy function. -/
structure REOutcome (n m : Nat) where
  warnings : Finset (Fin n)
  result : Except REError (PolicyFunction n m)

/-- Modelled from the spec: `solve_linear_RE` of §4.4.  Counts unstable
eigenvalues against jump variables: strictly fewer unstable than jump fails
with `IndeterminacyError`, strictly more fails with `NoStableSolutionError`,
an exact match returns the back-substituted policy function.  Eigenvalues
near the unit circle are flagged as warnings alongside this best-effort
classification. -/
def solve_linear_RE {n m : Nat} (tol : ℚ) (d : QZData n m) : REOutcome n m :=
  { warnings := boundaryWarnings tol d
    result :=
      if nUnstable d < nJump d then .error .indeterminacy
      else if nJump d < nUnstable d then .error .noStableSolution
      else .ok ⟨d.Pmat, d.Qmat⟩ }

/-- Modelled from the spec: the deviation dynamics of the decoupled system.
Two candidate bounded solutions sharing the same predetermined history differ,
coordinate by coordinate of the decomposition, by a solution of the
homogeneous recursion `z_{t+1} = lam i · z_t`; `devPath lam z0 t i` is that
difference at time `t` from initial deviation `z0`. -/
def devPath {n : Nat} (lam : Fin n → ℚ) (z0 : Fin n → ℚ) (t : Nat)
    (i : Fin n) : ℚ :=
  lam i ^ t * z0 i

/-- A path is bounded when a single bound dominates every coordinate at every
time. -/
def BoundedPath {n : Nat} (p : Nat → Fin n → ℚ) : Prop :=
  ∃ M : ℚ, ∀ t : Nat, ∀ i : Fin n, |p t i| ≤ M

/-- Geometric growth beyond the unit circle is unbounded: for `1 < a` and
`x ≠ 0`, `a ^ t * |x|` eventually exceeds any bound. -/
theorem pow_growth_unbounded (a x M : ℚ) (ha : 1 < a) (hx : x ≠ 0) :
    ∃ t : Nat, M < a ^ t * |x| := by
  have hxpos : 0 < |x| := abs_pos.mpr hx
  have hd : 0 < a - 1 := by linarith
  obtain ⟨t, ht⟩ := exists_nat_gt ((M / |x| - 1) / (a - 1))
  refine ⟨t, ?_⟩
  have hge : 1 + (t : ℚ) * (a - 1) ≤ a ^ t := by
    have := one_add_mul_le_pow (a := a - 1) (by linarith) t
    simpa using this
  have h1 : (M / |x| - 1) < (t : ℚ) * (a - 1) := by
    have := (div_lt_iff₀ hd).mp ht
    linarith
  have h2 : M / |x| < a ^ t := by linarith
  calc M = M / |x| * |x| := by field_simp
    _ < a ^ t * |x| := by
        exact mul_lt_mul_of_pos_right h2 hxpos

/-! ### Concrete decomposition data used by the witnesses -/

/-- One stable eigenvalue, one jump variable: 0 unstable < 1 jump. -/
def qzIndet : QZData 1 1 :=
  ⟨fun _ => 1/2, fun _ => true, fun _ _ => 0, fun _ _ => 0⟩

/-- One unstable eigenvalue, no jump variable: 1 unstable > 0 jump. -/
def qzNoStable : QZData 1 1 :=
  ⟨fun _ => 2, fun _ => false, fun _ _ => 0, fun _ _ => 0⟩

/-- One unstable eigenvalue, one jump variable: exact Blanchard-Kahn match. -/
def qzExact : QZData 1 1 :=
  ⟨fun _ => 2, fun _ => true, fun _ _ => 0, fun _ _ => 1⟩

/-- One eigenvalue within `10⁻⁷` of the unit circle. -/
def qzBoundary : QZData 1 1 :=
  ⟨fun _ => 1 + 1/10000000, fun _ => true, fun _ _ => 0, fun _ _ => 1⟩

theorem nUnstable_qzIndet : nUnstable qzIndet = 0 := by
  rw [nUnstable, Finset.card_eq_zero, Finset.filter_eq_empty_iff]
  intro i _
  show ¬ 1 < |(1:ℚ)/2|
  rw [abs_of_pos (by norm_num : (0:ℚ) < 1/2)]
  norm_num

theorem nJump_qzIndet : nJump qzIndet = 1 := by
  rw [nJump,
    Finset.filter_true_of_mem fun i _ => show qzIndet.jump i = true from rfl,
    Finset.card_univ]
  simp

theorem nUnstable_qzNoStable : nUnstable qzNoStable = 1 := by
  rw [nUnstable,
    Finset.filter_true_of_mem fun i _ => by
      show 1 < |(2:ℚ)|
      rw [abs_of_pos (by norm_num : (0:ℚ) < 2)]
      norm_num,
    Finset.card_univ]
  simp

theorem nJump_qzNoStable : nJump qzNoStable = 0 := by
  rw [nJump, Finset.card_eq_zero, Finset.filter_eq_empty_iff]
  intro i _
  show ¬ (false = true)
  simp

theorem nUnstable_qzExact : nUnstable qzExact = 1 := by
  rw [nUnstable,
    Finset.filter_true_of_mem fun i _ => by
      show 1 < |(2:ℚ)|
      rw [abs_of_pos (by norm_num : (0:ℚ) < 2)]
      norm_num,
    Finset.card_univ]
  simp

theorem nJump_qzExact : nJump qzExact = 1 := by
  rw [nJump,
    Finset.filter_true_of_mem fun i _ => show qzExact.jump i = true from rfl,
    Finset.card_univ]
  simp

theorem qzBoundary_near_unit : |(|qzBoundary.lam 0|) - 1| ≤ 1/1000000 := by
  show |(|(1:ℚ) + 1/10000000|) - 1| ≤ 1/1000000
  rw [abs_of_pos (by norm_num : (0:ℚ) < 1 + 1/10000000),
    show ((1:ℚ) + 1/10000000 - 1) = 1/10000000 by norm_num,
    abs_of_pos (by norm_num : (0:ℚ) < 1/10000000)]
  norm_num

/-- C1: `solve_linear_RE` fails with `IndeterminacyError` when the unstable
eigenvalue count is strictly below the jump-variable count, fails with
`NoStableSolutionError` when it is strictly above, and on an exact match
returns the back-substituted policy function; moreover (uniqueness, for the
decomposition pairing the jump variables with exactly the unstable
coordinates) any bounded deviation between two solutions sharing the same
predetermined history is identically zero, so the returned bounded solution
is unique. -/
theorem C1_blanchard_kahn_order_condition {n m : Nat} (tol : ℚ)
    (d : QZData n m) :
    (nUnstable d < nJump d →
      (solve_linear_RE tol d).result = .error .indeterminacy) ∧
    (nJump d < nUnstable d →
      (solve_linear_RE tol d).result = .error .noStableSolution) ∧
    (nUnstable d = nJump d →
      (solve_linear_RE tol d).result = .ok ⟨d.Pmat, d.Qmat⟩) ∧
    ((∀ i, d.jump i = true ↔ 1 < |d.lam i|) →
      ∀ z0 : Fin n → ℚ, (∀ i, d.jump i = false → z0 i = 0) →
        BoundedPath (devPath d.lam z0) → ∀ i, z0 i = 0) := by
  refine ⟨?_, ?_, ?_, ?_⟩
  · intro h
    simp [solve_linear_RE, if_pos h]
  · intro h
    have h' : ¬ nUnstable d < nJump d := by omega
    simp [solve_linear_RE, if_neg h', if_pos h]
  · intro h
    have h1 : ¬ nUnstable d < nJump d := by omega
    have h2 : ¬ nJump d < nUnstable d := by omega
    simp [solve_linear_RE, if_neg h1, if_neg h2]
  · intro halign z0 hpred hbnd i
    cases hj : d.jump i with
    | false => exact hpred i hj
    | true =>
      have hlam : 1 < |d.lam i| := (halign i).mp hj
      by_contra hz
      obtain ⟨M, hM⟩ := hbnd
      obtain ⟨t, ht⟩ := pow_growth_unbounded |d.lam i| (z0 i) M hlam hz
      have habs : |devPath d.lam z0 t i| = |d.lam i| ^ t * |z0 i| := by
        rw [devPath, abs_mul, abs_pow]
      have := hM t i
      rw [habs] at this
      linarith

theorem C1_blanchard_kahn_order_condition_witness :
    (solve_linear_RE (1/1000000) qzIndet).result = .error .indeterminacy ∧
    (solve_linear_RE (1/1000000) qzNoStable).result =
      .error .noStableSolution ∧
    (solve_linear_RE (1/1000000) qzExact).result =
      .ok ⟨qzExact.Pmat, qzExact.Qmat⟩ ∧
    (fun _ : Fin 1 => (0:ℚ)) 0 = 0 :=
  ⟨(C1_blanchard_kahn_order_condition (1/1000000) qzIndet).1
      (by rw [nUnstable_qzIndet, nJump_qzIndet]; norm_num),
   (C1_blanchard_kahn_order_condition (1/1000000) qzNoStable).2.1
      (by rw [nUnstable_qzNoStable, nJump_qzNoStable]; norm_num),
   (C1_blanchard_kahn_order_condition (1/1000000) qzExact).2.2.1
      (by rw [nUnstable_qzExact, nJump_qzExact]),
   (C1_blanchard_kahn_order_condition (1/1000000) qzExact).2.2.2
     (fun i => by
       show (true = true) ↔ 1 < |(2:ℚ)|
       rw [abs_of_pos (by norm_num : (0:ℚ) < 2)]
       norm_num)
     (fun _ => 0) (fun _ _ => rfl)
     ⟨0, fun t i => by simp [devPath]⟩ 0⟩

/-- Modelled from the spec: the decomposition of the already-reduced scalar
system `B·y_t + C·y_{t-1} + D·ε_t = 0` (no expectational lead; §8 notes such
an equation "is already in reduced state-space form").  Rearranging gives
`y_t = (-C/B)·y_{t-1} + (-D/B)·ε_t`: the single generalized eigenvalue is
`-C/B`, the variable is predetermined (it enters with a lag, never with a
lead), and back-substitution returns the rearranged coefficients. -/
def scalarReduced (B C D : ℚ) : QZData 1 1 :=
  ⟨fun _ => -C / B, fun _ => false, fun _ _ => -C / B, fun _ _ => -D / B⟩

/-- C2: for `|ρ| < 1`, solving the one-equation model `x_t = ρ·x_{t-1} + ε_t`
(residual form `-x_t + ρ·x_{t-1} + ε_t = 0`, so `B = -1`, `C = ρ`, `D = 1`)
returns exactly `P = [ρ]` and `Q = [1]`. -/
theorem C2_ar1_policy_function (rho : ℚ) (h : |rho| < 1) :
    (solve_linear_RE (1/1000000) (scalarReduced (-1) rho 1)).result =
      .ok ⟨fun _ _ => rho, fun _ _ => 1⟩ := by
  have hval : -rho / (-1 : ℚ) = rho := by
    rw [neg_div_neg_eq, div_one]
  have hval2 : -(1 : ℚ) / (-1 : ℚ) = 1 := by norm_num
  have hnu : nUnstable (scalarReduced (-1) rho 1) = 0 := by
    rw [nUnstable, Finset.card_eq_zero, Finset.filter_eq_empty_iff]
    intro i _
    show ¬ 1 < |(-rho) / (-1 : ℚ)|
    rw [hval]
    exact not_lt.mpr (le_of_lt h)
  have hnj : nJump (scalarReduced (-1) rho 1) = 0 := by
    rw [nJump, Finset.card_eq_zero, Finset.filter_eq_empty_iff]
    intro i _
    show ¬ (false = true)
    simp
  have hP : (scalarReduced (-1) rho 1).Pmat = fun _ _ => rho := by
    funext i j
    exact hval
  have hQ : (scalarReduced (-1) rho 1).Qmat = fun _ _ => (1:ℚ) := by
    funext i j
    exact hval2
  simp [solve_linear_RE, hnu, hnj, hP, hQ]

theorem C2_ar1_policy_function_witness :
    (solve_linear_RE (1/1000000) (scalarReduced (-1) (1/2) 1)).result =
      .ok ⟨fun _ _ => 1/2, fun _ _ => 1⟩ :=
  C2_ar1_policy_function (1/2)
    (by rw [abs_of_pos (by norm_num : (0:ℚ) < 1/2)]; norm_num)

/-- C7: `solve_linear_RE` is a pure, deterministic function — two calls on
identical decomposition inputs (hence identical coefficient systems) return
identical outcomes; no randomness is involved. -/
theorem C7_solve_deterministic {n m : Nat} (tol : ℚ) (d d' : QZData n m)
    (h : d = d') : solve_linear_RE tol d = solve_linear_RE tol d' := by
  rw [h]

theorem C7_solve_deterministic_witness :
    solve_linear_RE (1/1000000) qzIndet = solve_linear_RE (1/1000000) qzIndet :=
  C7_solve_deterministic (1/1000000) qzIndet qzIndet rfl

/-- C8: every eigenvalue whose modulus lies within the boundary tolerance of
exactly 1 is reported in the `BoundaryEigenvalueWarning` set of the outcome
(which is therefore nonempty) — it is never silently classified as stable or
unstable, even though a best-effort result is still produced. -/
theorem C8_boundary_eigenvalue_flagged {n m : Nat} (tol : ℚ) (d : QZData n m)
    (i : Fin n) (h : |(|d.lam i|) - 1| ≤ tol) :
    i ∈ (solve_linear_RE tol d).warnings ∧
      (solve_linear_RE tol d).warnings ≠ ∅ := by
  have hmem : i ∈ (solve_linear_RE tol d).warnings := by
    rw [solve_linear_RE]
    exact Finset.mem_filter.mpr ⟨Finset.mem_univ i, h⟩
  exact ⟨hmem, Finset.ne_empty_of_mem hmem⟩

theorem C8_boundary_eigenvalue_flagged_witness :
    (0 : Fin 1) ∈ (solve_linear_RE (1/1000000) qzBoundary).warnings ∧
      (solve_linear_RE (1/1000000) qzBoundary).warnings ≠ ∅ :=
  C8_boundary_eigenvalue_flagged (1/1000000) qzBoundary 0 qzBoundary_near_unit

/-! ## Simulation / IRF engine (spec-modelled) -/

/-- Modelled from the spec: §4.5's impulse shock path — a one-unit impulse in
coordinate `j` at `t = 0` and zero at every later time. -/
def unitShock {m : Nat} (j : Fin m) (t : Nat) : Fin m → ℚ :=
  fun s => if t = 0 ∧ s = j then 1 else 0

/-- Modelled from the spec: one step of the policy recursion
`y_t = P·y_{t-1} + Q·ε_t`. -/
def stepPolicy {n m : Nat} (pf : PolicyFunction n m) (y : Fin n → ℚ)
    (eps : Fin m → ℚ) : Fin n → ℚ :=
  fun i => (∑ k, pf.P i k * y k) + (∑ s, pf.Q i s * eps s)

/-- Modelled from the spec: the impulse-response state at time `t`, obtained
by propagating the policy recursion forward from the zero initial state under
the unit impulse shock path. -/
def irfState {n m : Nat} (pf : PolicyFunction n m) (j : Fin m) :
    Nat → Fin n → ℚ
  | 0 => stepPolicy pf (fun _ => 0) (unitShock j 0)
  | t+1 => stepPolicy pf (irfState pf j t) (unitShock j (t+1))

/-- Modelled from the spec: `impulse_response(policy, shock_index, horizon)`
of §4.5 — the finite sequence of the first `horizon` impulse-response states,
recomputed from `t = 0` on each call (a pure function of its arguments, with
no carried state between calls). -/
def impulse_response {n m : Nat} (pf : PolicyFunction n m) (j : Fin m)
    (horizon : Nat) : List (Fin n → ℚ) :=
  (List.range horizon).map (irfState pf j)

/-- The policy function of the solved AR(1) model: `P = [ρ]`, `Q = [1]`. -/
def arPolicy (rho : ℚ) : PolicyFunction 1 1 :=
  ⟨fun _ _ => rho, fun _ _ => 1⟩

/-- C3: the impulse response uses a shock vector that is a one-unit impulse
in coordinate `j` at `t = 0` and zero at every later time; it iterates
`y_t = P·y_{t-1} + Q·ε_t` from the zero initial state (so `y_0` is column `j`
of `Q` and each later state applies `P` alone), producing `horizon` entries;
and for the AR(1) policy `P = [ρ]`, `Q = [1]` the response at horizon `h` is
exactly `ρ ^ h`. -/
theorem C3_impulse_response {n m : Nat} (pf : PolicyFunction n m) (j : Fin m)
    (horizon : Nat) (rho : ℚ) (h : Nat) :
    (unitShock j 0 j = 1 ∧ ∀ t, t ≠ 0 → ∀ s, unitShock j t s = 0) ∧
    (irfState pf j 0 = fun i => pf.Q i j) ∧
    (∀ t, irfState pf j (t+1) = fun i => ∑ k, pf.P i k * irfState pf j t k) ∧
    (impulse_response pf j horizon).length = horizon ∧
    irfState (arPolicy rho) 0 h 0 = rho ^ h := by
  refine ⟨⟨?_, ?_⟩, ?_, ?_, ?_, ?_⟩
  · simp [unitShock]
  · intro t ht s
    simp [unitShock, ht]
  · funext i
    simp [irfState, stepPolicy, unitShock, Finset.sum_ite_eq']
  · intro t
    funext i
    simp [irfState, stepPolicy, unitShock]
  · simp [impulse_response]
  · induction h with
    | zero =>
      simp [irfState, stepPolicy, unitShock, arPolicy]
    | succ t ih =>
      have hstep : irfState (arPolicy rho) 0 (t+1) 0 =
          rho * irfState (arPolicy rho) 0 t 0 := by
        simp [irfState, stepPolicy, unitShock, arPolicy, Fin.sum_univ_one]
      rw [hstep, ih, pow_succ]
      ring

theorem C3_impulse_response_witness :
    (unitShock (0 : Fin 1) 1 0 = 0) ∧
    irfState (arPolicy (1/2)) 0 3 0 = (1/2 : ℚ) ^ 3 :=
  ⟨(C3_impulse_response (arPolicy (1/2)) 0 5 (1/2) 3).1.2 1 (by decide) 0,
   (C3_impulse_response (arPolicy (1/2)) 0 5 (1/2) 3).2.2.2.2⟩

/-! ## Steady-state solver (spec-modelled) -/

/-- Modelled from the spec: the `SteadyStateError` cases of §7 — a singular
Jacobian at some iterate, or the iteration count exceeded without
convergence. -/
inductive SteadyStateError where
  | singularJacobian
  | maxIterations
  deriving DecidableEq

/-- Modelled from the spec: a steady-state problem after §4.2's collapse of
every lead/lag occurrence to one steady-state symbol per variable and every
shock to zero (the symbolic manipulation lives in the missing `Dynare`
module).  `F` maps an iterate to the residual vector of the collapsed
equations, `newtonStep` maps an iterate `x` to `x - J(x)⁻¹·F(x)` and is
`none` exactly when the Jacobian `J(x)` is singular, and `tol` is the
convergence tolerance on the residual norm. -/
structure NewtonProblem where
  F : List ℚ → List ℚ
  newtonStep : List ℚ → Option (List ℚ)
  tol : ℚ

/-- The max-norm of a residual vector. -/
def resNorm (v : List ℚ) : ℚ :=
  v.foldr (fun r acc => max |r| acc) 0

/-- Modelled from the spec: Newton iteration of §4.2 — stop with the current
iterate once `‖F(x)‖` falls below the tolerance, fail with
`SteadyStateError.singularJacobian` if the Jacobian is singular at a
non-converged iterate, fail with `SteadyStateError.maxIterations` once the
iteration budget is exhausted without convergence. -/
def newtonLoop (p : NewtonProblem) :
    Nat → List ℚ → Except SteadyStateError (List ℚ)
  | 0, x => if resNorm (p.F x) < p.tol then .ok x else .error .maxIterations
  | k+1, x =>
      if resNorm (p.F x) < p.tol then .ok x
      else
        match p.newtonStep x with
        | none => .error .singularJacobian
        | some x' => newtonLoop p k x'

/-- Modelled from the spec: `solve_steady_state(model, initial_guess)` of
§4.2 — run the Newton loop from the initial guess with the given iteration
budget; the solver itself never restarts from a different guess. -/
def solve_steady_state (p : NewtonProblem) (maxIter : Nat) (x0 : List ℚ) :
    Except SteadyStateError (List ℚ) :=
  newtonLoop p maxIter x0

theorem abs_le_resNorm (v : List ℚ) (r : ℚ) (hr : r ∈ v) : |r| ≤ resNorm v := by
  induction v with
  | nil => cases hr
  | cons a t ih =>
    rw [resNorm, List.foldr_cons]
    rcases List.mem_cons.mp hr with h | h
    · rw [h]
      exact le_max_left _ _
    · exact le_trans (ih h) (le_max_right _ _)

/-- C4: whenever `solve_steady_state` returns rather than failing, the
returned iterate satisfies every collapsed equation with residual norm below
the convergence tolerance — in particular each individual equation's residual
is within tolerance. -/
theorem C4_steady_state_residuals (p : NewtonProblem) (maxIter : Nat)
    (x0 y : List ℚ) (h : solve_steady_state p maxIter x0 = .ok y) :
    resNorm (p.F y) < p.tol ∧ ∀ r ∈ p.F y, |r| < p.tol := by
  have key : ∀ k x, newtonLoop p k x = .ok y → resNorm (p.F y) < p.tol := by
    intro k
    induction k with
    | zero =>
      intro x hx
      rw [newtonLoop] at hx
      split at hx
      · cases hx
        assumption
      · cases hx
    | succ k ih =>
      intro x hx
      rw [newtonLoop] at hx
      split at hx
      · cases hx
        assumption
      · revert hx
        cases p.newtonStep x with
        | none =>
          intro hx
          cases hx
        | some x' =>
          intro hx
          exact ih x' hx
  have hnorm := key maxIter x0 h
  exact ⟨hnorm, fun r hr => lt_of_le_of_lt (abs_le_resNorm _ r hr) hnorm⟩

/-- The one-equation example problem `F(x) = x - 1` with the exact Newton
step `x - (x-1)/1 = 1`, used to witness the solver theorems. -/
def newtonEx : NewtonProblem :=
  { F := fun x => [x.headD 0 - 1]
    newtonStep := fun _ => some [1]
    tol := 1/1000 }

theorem newtonEx_run : solve_steady_state newtonEx 5 [0] = .ok [1] := by
  have h0 : ¬ resNorm (newtonEx.F [0]) < newtonEx.tol := by
    show ¬ resNorm [(0:ℚ) - 1] < 1/1000
    rw [resNorm, List.foldr_cons, List.foldr_nil,
      max_eq_left (abs_nonneg _), show ((0:ℚ) - 1) = -1 by norm_num,
      abs_neg, abs_one]
    norm_num
  have h1 : resNorm (newtonEx.F [1]) < newtonEx.tol := by
    show resNorm [(1:ℚ) - 1] < 1/1000
    rw [resNorm, List.foldr_cons, List.foldr_nil,
      max_eq_left (abs_nonneg _), show ((1:ℚ) - 1) = 0 by norm_num, abs_zero]
    norm_num
  show newtonLoop newtonEx 5 [0] = .ok [1]
  rw [show (5:Nat) = 4+1 from rfl, newtonLoop, if_neg h0]
  show newtonLoop newtonEx 4 [1] = .ok [1]
  rw [show (4:Nat) = 3+1 from rfl, newtonLoop, if_pos h1]

theorem C4_steady_state_residuals_witness :
    resNorm (newtonEx.F [1]) < newtonEx.tol ∧
      ∀ r ∈ newtonEx.F [1], |r| < newtonEx.tol :=
  C4_steady_state_residuals newtonEx 5 [0] [1] newtonEx_run

/-- Whether the Newton iteration from `x` reaches, within `k` steps, a
non-converged iterate at which the Jacobian is singular. -/
def hitsSingular (p : NewtonProblem) : Nat → List ℚ → Bool
  | 0, _ => false
  | k+1, x =>
      if resNorm (p.F x) < p.tol then false
      else
        match p.newtonStep x with
        | none => true
        | some x' => hitsSingular p k x'

/-- Whether the Newton iteration from `x` spends its whole budget of `k`
steps with every iterate non-converged and every Jacobian invertible. -/
def runsOut (p : NewtonProblem) : Nat → List ℚ → Bool
  | 0, x => if resNorm (p.F x) < p.tol then false else true
  | k+1, x =>
      if resNorm (p.F x) < p.tol then false
      else
        match p.newtonStep x with
        | none => false
        | some x' => runsOut p k x'

/-- C6: `solve_steady_state` fails with `SteadyStateError.singularJacobian`
exactly when the Newton trajectory from the initial guess hits a singular
Jacobian at a non-converged iterate, and with
`SteadyStateError.maxIterations` exactly when the whole iteration budget
passes without the residual norm falling below tolerance; both conditions are
properties of the single trajectory from the caller's initial guess — the
solver never retries from a different guess. -/
theorem C6_steady_state_error_conditions (p : NewtonProblem) (maxIter : Nat)
    (x0 : List ℚ) :
    (solve_steady_state p maxIter x0 = .error .singularJacobian ↔
      hitsSingular p maxIter x0 = true) ∧
    (solve_steady_state p maxIter x0 = .error .maxIterations ↔
      runsOut p maxIter x0 = true) := by
  induction maxIter generalizing x0 with
  | zero =>
    by_cases hc : resNorm (p.F x0) < p.tol <;>
      simp [solve_steady_state, newtonLoop, hitsSingular, runsOut, hc]
  | succ k ih =>
    by_cases hc : resNorm (p.F x0) < p.tol
    · simp [solve_steady_state, newtonLoop, hitsSingular, runsOut, hc]
    · cases hstep : p.newtonStep x0 with
      | none =>
        simp [solve_steady_state, newtonLoop, hitsSingular, runsOut, hc,
          hstep]
      | some x' =>
        simpa [solve_steady_state, newtonLoop, hitsSingular, runsOut, hc,
          hstep] using ih x'

/-! ## Symbolic model builder (spec-modelled) -/

/-- Modelled from the spec: one identifier occurrence in a parsed equation,
carrying its lead/lag offset annotation (§4.1 treats a variable at each
distinct offset as a distinct symbol). -/
structure Occurrence where
  name : String
  offset : Int
  deriving DecidableEq

/-- Modelled from the spec: the four inputs of `build(variables, shocks,
parameters, equations)` — the declared name lists (`vars` holds the
endogenous variable names) and the equations, each parsed into its list of
identifier occurrences. -/
structure ModelSpec where
  vars : List String
  shocks : List String
  params : List String
  equations : List (List Occurrence)
  deriving DecidableEq

/-- Modelled from the spec: the `ModelSpecError` cases of §7 — wrong
equation/variable count, an undeclared identifier, an unsupported lead/lag
offset. -/
inductive ModelSpecError where
  | eqCountMismatch
  | undeclaredIdent
  | badOffset
  deriving DecidableEq

/-- Modelled from the spec: the immutable symbolic `Model` produced by a
successful `build` — the validated inputs, owned unchanged. -/
structure Model where
  vars : List String
  shocks : List String
  params : List String
  equations : List (List Occurrence)
  deriving DecidableEq

/-- An identifier is declared when it appears in the variable, shock or
parameter list. -/
def declared (r : ModelSpec) (s : String) : Bool :=
  r.vars.contains s || r.shocks.contains s || r.params.contains s

/-- A lead/lag offset is supported when it lies in `{-1, 0, +1}`. -/
def offsetOK (o : Int) : Bool :=
  o == -1 || o == 0 || o == 1

/-- Modelled from the spec: `build` of §4.1 — validate the equation count,
the declaredness of every identifier occurrence and every lead/lag offset at
construction time, failing immediately with the matching `ModelSpecError`,
and otherwise return the immutable symbolic model. -/
def build (r : ModelSpec) : Except ModelSpecError Model :=
  if r.equations.length ≠ r.vars.length then .error .eqCountMismatch
  else if r.equations.all (fun q => q.all (fun oc => declared r oc.name)) then
    if r.equations.all (fun q => q.all (fun oc => offsetOK oc.offset)) then
      .ok ⟨r.vars, r.shocks, r.params, r.equations⟩
    else .error .badOffset
  else .error .undeclaredIdent

theorem declared_all_iff (r : ModelSpec) :
    (r.equations.all fun q => q.all fun oc => declared r oc.name) = true ↔
      ∀ q ∈ r.equations, ∀ oc ∈ q,
        oc.name ∈ r.vars ∨ oc.name ∈ r.shocks ∨ oc.name ∈ r.params := by
  simp [List.all_eq_true, declared, or_assoc]

theorem offset_all_iff (r : ModelSpec) :
    (r.equations.all fun q => q.all fun oc => offsetOK oc.offset) = true ↔
      ∀ q ∈ r.equations, ∀ oc ∈ q,
        oc.offset = -1 ∨ oc.offset = 0 ∨ oc.offset = 1 := by
  simp [List.all_eq_true, offsetOK, or_assoc]

/-- C5: `build` fails with a `ModelSpecError` — at construction time, with no
recovery — exactly when the equation count differs from the variable count,
or some equation contains an identifier declared in none of the three lists,
or some occurrence uses a lead/lag offset outside `{-1, 0, +1}`; otherwise it
returns the immutable symbolic model of the validated inputs. -/
theorem C5_build_model_spec_errors (r : ModelSpec) :
    ((∃ e, build r = .error e) ↔
      (r.equations.length ≠ r.vars.length ∨
        (∃ q ∈ r.equations, ∃ oc ∈ q,
          oc.name ∉ r.vars ∧ oc.name ∉ r.shocks ∧ oc.name ∉ r.params) ∨
        (∃ q ∈ r.equations, ∃ oc ∈ q,
          oc.offset ≠ -1 ∧ oc.offset ≠ 0 ∧ oc.offset ≠ 1))) ∧
    (¬ (r.equations.length ≠ r.vars.length ∨
        (∃ q ∈ r.equations, ∃ oc ∈ q,
          oc.name ∉ r.vars ∧ oc.name ∉ r.shocks ∧ oc.name ∉ r.params) ∨
        (∃ q ∈ r.equations, ∃ oc ∈ q,
          oc.offset ≠ -1 ∧ oc.offset ≠ 0 ∧ oc.offset ≠ 1)) →
      build r = .ok ⟨r.vars, r.shocks, r.params, r.equations⟩) := by
  have hd2 : (¬ (r.equations.all fun q =>
        q.all fun oc => declared r oc.name) = true) ↔
      ∃ q ∈ r.equations, ∃ oc ∈ q,
        oc.name ∉ r.vars ∧ oc.name ∉ r.shocks ∧ oc.name ∉ r.params := by
    rw [declared_all_iff]
    push_neg
    rfl
  have ho2 : (¬ (r.equations.all fun q =>
        q.all fun oc => offsetOK oc.offset) = true) ↔
      ∃ q ∈ r.equations, ∃ oc ∈ q,
        oc.offset ≠ -1 ∧ oc.offset ≠ 0 ∧ oc.offset ≠ 1 := by
    rw [offset_all_iff]
    push_neg
    rfl
  have hiff : (∃ e, build r = .error e) ↔
      (r.equations.length ≠ r.vars.length ∨
        (¬ (r.equations.all fun q =>
            q.all fun oc => declared r oc.name) = true) ∨
        (¬ (r.equations.all fun q =>
            q.all fun oc => offsetOK oc.offset) = true)) := by
    unfold build
    split_ifs with h1 h2 h3 <;> simp_all
    exact ⟨h2, h3⟩
  constructor
  · rw [hiff, hd2, ho2]
  · intro hno
    have h1 : ¬ r.equations.length ≠ r.vars.length :=
      fun hc => hno (Or.inl hc)
    have h2 : (r.equations.all fun q =>
        q.all fun oc => declared r oc.name) = true := by
      by_contra hc
      exact hno (Or.inr (Or.inl (hd2.mp hc)))
    have h3 : (r.equations.all fun q =>
        q.all fun oc => offsetOK oc.offset) = true := by
      by_contra hc
      exact hno (Or.inr (Or.inr (ho2.mp hc)))
    rw [build, if_neg h1, if_pos h2, if_pos h3]

/-- A well-formed one-variable specification: the AR(1) equation
`-x + rho*x(-1) + eps` over variable `x`, shock `eps`, parameter `rho`. -/
def modelSpecEx : ModelSpec :=
  { vars := ["x"]
    shocks := ["eps"]
    params := ["rho"]
    equations := [[⟨"x", 0⟩, ⟨"rho", 0⟩, ⟨"x", -1⟩, ⟨"eps", 0⟩]] }

theorem C5_build_model_spec_errors_witness :
    build modelSpecEx =
      .ok ⟨modelSpecEx.vars, modelSpecEx.shocks, modelSpecEx.params,
        modelSpecEx.equations⟩ :=
  (C5_build_model_spec_errors modelSpecEx).2 (by decide)
